import Mathlib

/-!
Shallow embedding of `src/shell.c` (a simple UNIX shell) and verification of
the specification claims about it.

Modelling conventions:
* A command line is a `List String` of tokens; the C array is NULL-terminated,
  and reading `line[i]` is modelled by `List.get? line i` (index at or past the
  end yields `none`, the NULL sentinel).
* Process identifiers are `Int` (C `pid_t` is signed).
* File-descriptor plumbing is modelled by a trace of `Action`s performed by the
  process that executes the code; a `forkCall` action carries the complete trace
  of the forked child process.
* `open` flag and mode bit constants carry their Linux numeric values; flag
  words are combined with bitwise or, exactly as the C source does.
-/

namespace Shell

/-- Embeds `isSpecial` (shell.c lines 450-453):
`strlen(token)==1 && strchr("<>|", token[0])` or
`strlen(token)==2 && strchr(">", token[1])`. -/
def isSpecial (token : String) : Bool :=
  match token.data with
  | [c] => c = '<' || c = '>' || c = '|'
  | [_, c] => c = '>'
  | _ => false

/-- Helper: a successful indexed lookup implies the index is in bounds. -/
theorem get?_some_lt {α : Type} {l : List α} {i : Nat} {a : α}
    (h : l.get? i = some a) : i < l.length := by
  by_contra hc
  rw [List.get?_eq_none.mpr (Nat.le_of_not_lt hc)] at h
  exact Option.noConfusion h

/-- Embeds the loop of `parseArgs` (shell.c lines 368-376).  `i` tracks
`*lineIndex`, `j` tracks the local loop counter `i` of the C code.  The result
is the list of writes performed into `args` (index paired with the value
written, `none` being the NULL sentinel written after the loop) together with
the final value of `*lineIndex`. -/
def parseArgsRec (line : List String) (i j : Nat) :
    List (Nat × Option String) × Nat :=
  match h : line.get? i with
  | none => ([(j, none)], i)
  | some t =>
    if isSpecial t then ([(j, none)], i)
    else
      let r := parseArgsRec line (i + 1) (j + 1)
      ((j, some t) :: r.1, r.2)
termination_by line.length - i
decreasing_by
  have := get?_some_lt h
  omega

/-- Index monotonicity of the `parseArgs` loop: `*lineIndex` never decreases.
(Needed below to justify termination of the line interpreter.) -/
theorem parseArgsRec_idx_ge (line : List String) : ∀ (i j : Nat),
    i ≤ (parseArgsRec line i j).2 := by
  intro i j
  induction i, j using parseArgsRec.induct line with
  | case1 i j h => rw [parseArgsRec, h]
  | case2 i j t h hs => rw [parseArgsRec, h]; dsimp only; rw [if_pos hs]
  | case3 i j t h hs ih =>
    rw [parseArgsRec, h]
    dsimp only
    rw [if_neg hs]
    dsimp only
    omega

/-- The writes `parseArgs` performs into the caller-supplied `args` array. -/
def parseArgsWrites (line : List String) (i : Nat) : List (Nat × Option String) :=
  (parseArgsRec line i 0).1

/-- The value of `*lineIndex` when `parseArgs` returns. -/
def parseArgsIdx (line : List String) (i : Nat) : Nat :=
  (parseArgsRec line i 0).2

/-- The argument vector `parseArgs` leaves in `args` (the tokens copied, the
NULL sentinel being implicit at the end of the list). -/
def parseArgsList (line : List String) (i : Nat) : List String :=
  (parseArgsWrites line i).filterMap Prod.snd

/-- `*lineIndex` never decreases across a `parseArgs` call. -/
theorem parseArgsIdx_ge (line : List String) (i : Nat) : i ≤ parseArgsIdx line i :=
  parseArgsRec_idx_ge line i 0

/- Linux numeric values of the constants used by shell.c. -/

def O_RDONLY : Nat := 0
def O_WRONLY : Nat := 1
def O_ACCMODE : Nat := 3
def O_CREAT : Nat := 64
def O_TRUNC : Nat := 512
def O_APPEND : Nat := 1024
def S_IRWXU : Nat := 448
def S_IRUSR : Nat := 256
def S_IWUSR : Nat := 128
def S_IXUSR : Nat := 64
def STDIN_FILENO : Nat := 0
def STDOUT_FILENO : Nat := 1
def STDERR_FILENO : Nat := 2
def SIGINT : Int := 2

/-- What a file descriptor refers to, in the trace model. -/
inductive Fd where
  /-- The descriptor returned by `open(filename, flags, mode)`. -/
  | opened (filename : Option String) (flags mode : Nat) : Fd
  /-- The read end (`pipefd[0]`) of the `k`-th pipe created by the process. -/
  | pipeRead (k : Nat) : Fd
  /-- The write end (`pipefd[1]`) of the `k`-th pipe created by the process. -/
  | pipeWrite (k : Nat) : Fd
deriving DecidableEq, Repr

/-- One observable step of a process of the shell. -/
inductive Action where
  /-- A call `open(filename, flags, mode)`. -/
  | openCall (filename : Option String) (flags mode : Nat) : Action
  /-- A call `dup2(src, dst)` rebinding standard descriptor number `dst`. -/
  | dup2Call (src : Fd) (dst : Nat) : Action
  /-- A call `close(fd)`. -/
  | closeCall (fd : Fd) : Action
  /-- A call `pipe(pipefd)` creating the process's `k`-th pipe. -/
  | pipeCall (k : Nat) : Action
  /-- A `fork` whose child process performs exactly the given trace. -/
  | forkCall (child : List Action) : Action
  /-- A call `execv(args[0], args)`. -/
  | execCall (args : List String) : Action
  /-- A `printf` call. -/
  | printCall (s : String) : Action

/-- Static description of one redirection function of shell.c: the flag word
and mode passed to `open`, the standard descriptor numbers rebound by `dup2`
(in source order), and the `_exit` status used when `open` fails. -/
structure RedirSpec where
  flags : Nat
  mode : Nat
  rebinds : List Nat
  failStatus : Nat
deriving DecidableEq, Repr

/-- Embeds `doAppendRedirection` (shell.c lines 257-269):
`open(filename, O_CREAT | O_APPEND | O_WRONLY, S_IRWXU)`, on failure
`_exit(1)`, then `dup2(file, STDOUT_FILENO); close(file)`. -/
def doAppendRedirection : RedirSpec :=
  { flags := O_CREAT.lor (O_APPEND.lor O_WRONLY), mode := S_IRWXU,
    rebinds := [STDOUT_FILENO], failStatus := 1 }

/-- Embeds `doStdoutRedirection` (shell.c lines 279-290):
`open(filename, O_CREAT | O_TRUNC | O_WRONLY, S_IRWXU)`, on failure
`_exit(1)`, then `dup2(file, STDOUT_FILENO); close(file)`. -/
def doStdoutRedirection : RedirSpec :=
  { flags := O_CREAT.lor (O_TRUNC.lor O_WRONLY), mode := S_IRWXU,
    rebinds := [STDOUT_FILENO], failStatus := 1 }

/-- Embeds `doStderrRedirection` (shell.c lines 300-310):
`open(filename, O_CREAT | O_TRUNC | O_WRONLY, S_IRWXU)`, on failure
`_exit(1)`, then `dup2(file, STDERR_FILENO); close(file)`. -/
def doStderrRedirection : RedirSpec :=
  { flags := O_CREAT.lor (O_TRUNC.lor O_WRONLY), mode := S_IRWXU,
    rebinds := [STDERR_FILENO], failStatus := 1 }

/-- Embeds `doStdoutStderrRedirection` (shell.c lines 320-333):
`open(filename, O_CREAT | O_TRUNC | O_WRONLY, S_IRWXU)`, on failure
`_exit(1)`, then `dup2(file, STDOUT_FILENO); dup2(file, STDERR_FILENO);
close(file)`. -/
def doStdoutStderrRedirection : RedirSpec :=
  { flags := O_CREAT.lor (O_TRUNC.lor O_WRONLY), mode := S_IRWXU,
    rebinds := [STDOUT_FILENO, STDERR_FILENO], failStatus := 1 }

/-- Embeds `doStdinRedirection` (shell.c lines 343-354):
`open(filename, O_RDONLY, S_IRWXU)`, on failure `_exit(1)`, then
`dup2(file, STDIN_FILENO); close(file)`. -/
def doStdinRedirection : RedirSpec :=
  { flags := O_RDONLY, mode := S_IRWXU,
    rebinds := [STDIN_FILENO], failStatus := 1 }

/-- The success-path trace common to all five redirection functions: open the
file, `dup2` the opened descriptor onto each rebound standard descriptor in
source order, then close the opened descriptor. -/
def redirTrace (r : RedirSpec) (filename : Option String) : List Action :=
  Action.openCall filename r.flags r.mode ::
    (r.rebinds.map fun d => Action.dup2Call (Fd.opened filename r.flags r.mode) d)
    ++ [Action.closeCall (Fd.opened filename r.flags r.mode)]

/-- `_exit` status of `run` when `execv` fails (shell.c line 522). -/
def runExecFailStatus : Nat := 1

/-- `_exit` status of `forkWrapper` when `fork` fails (shell.c line 404). -/
def forkWrapperFailStatus : Nat := 2

/-- `_exit` status of `dupWrapper` when `dup` fails (shell.c line 438). -/
def dupWrapperFailStatus : Nat := 3

/-- `_exit` status of `pipeWrapper` when `pipe` fails (shell.c line 422). -/
def pipeWrapperFailStatus : Nat := 4

/-- A kill(2) call as issued by the code: the first C argument is the target
process ID, the second the signal number. -/
structure KillCall where
  pid : Int
  sig : Int
deriving DecidableEq, Repr

/-- Embeds `signalHandler` (shell.c lines 531-536).  The C body is
`if (PARENT_PID(childPid)) kill(SIGINT, childPid);` with
`PARENT_PID(pid) = (pid > 0)` — so the first argument passed to `kill`
(the target pid position) is `SIGINT` and the second (the signal-number
position) is `childPid`. -/
def signalHandler (childPid : Int) : Option KillCall :=
  if childPid > 0 then some { pid := SIGINT, sig := childPid } else none

mutual

/-- Embeds `continueProcessingLine` (shell.c lines 154-198), as the trace of
actions performed by the process executing it, paired with the final value of
`*lineIndex` in that process.  The string comparisons appear in source order
(`>>`, `2>`, `&>`, `>`, `<`, `|`).  The base case `line[*lineIndex] == NULL`
calls `run(args)`, whose success path is the single `execv` call (shell.c
lines 519-524); the final `else`-less fall-through (a token matching none of
the six operators) returns without doing anything.  In each redirection case,
`*lineIndex` is incremented, the redirection function is applied to
`line[*lineIndex]` (the token after the operator, `none` when absent), and
`*lineIndex` is incremented again before the recursive call. -/
def continueProcessingLine (line : List String) (idx : Nat) (args : List String)
    (k : Nat) : List Action × Nat :=
  match h : line.get? idx with
  | none => ([Action.execCall args], idx)
  | some t =>
    if t = ">>" then
      let r := continueProcessingLine line (idx + 2) args k
      (redirTrace doAppendRedirection (line.get? (idx + 1)) ++ r.1, r.2)
    else if t = "2>" then
      let r := continueProcessingLine line (idx + 2) args k
      (redirTrace doStderrRedirection (line.get? (idx + 1)) ++ r.1, r.2)
    else if t = "&>" then
      let r := continueProcessingLine line (idx + 2) args k
      (redirTrace doStdoutStderrRedirection (line.get? (idx + 1)) ++ r.1, r.2)
    else if t = ">" then
      let r := continueProcessingLine line (idx + 2) args k
      (redirTrace doStdoutRedirection (line.get? (idx + 1)) ++ r.1, r.2)
    else if t = "<" then
      let r := continueProcessingLine line (idx + 2) args k
      (redirTrace doStdinRedirection (line.get? (idx + 1)) ++ r.1, r.2)
    else if t = "|" then
      doPipe args line (idx + 1) k
    else ([], idx)
termination_by (line.length - idx, 0)
decreasing_by
  all_goals
    have hlt : idx < line.length := by
      by_contra hc
      rw [List.get?_eq_none.mpr (Nat.le_of_not_lt hc)] at h
      exact Option.noConfusion h
    exact Prod.Lex.left _ _ (by omega)

/-- Embeds `doPipe` (shell.c lines 212-247).  `k` numbers the pipe created by
the `pipeWrapper` call.  The trace follows the parent (the process that keeps
interpreting the line): the forked child closes `pipefd[0]`, rebinds stdout to
`pipefd[1]` and execs the left-hand command; the parent closes `pipefd[1]`,
prints a debug message, rebinds stdin to `pipefd[0]`, prints again, parses the
next command with `parseArgs`, and resumes `continueProcessingLine`.  `idx` is
the cursor value one past the `|` token. -/
def doPipe (p1Args : List String) (line : List String) (idx : Nat) (k : Nat) :
    List Action × Nat :=
  let r := continueProcessingLine line (parseArgsIdx line idx)
    (parseArgsList line idx) (k + 1)
  (Action.pipeCall k ::
   Action.forkCall [Action.closeCall (Fd.pipeRead k),
     Action.dup2Call (Fd.pipeWrite k) STDOUT_FILENO,
     Action.execCall p1Args] ::
   Action.closeCall (Fd.pipeWrite k) ::
   Action.printCall "right before doing read in parent pipe \n" ::
   Action.dup2Call (Fd.pipeRead k) STDIN_FILENO ::
   Action.printCall "Finish parent pipe " ::
   r.1, r.2)
termination_by (line.length - idx, 1)
decreasing_by
  have hge := parseArgsIdx_ge line idx
  have h2 : line.length - parseArgsIdx line idx ≤ line.length - idx :=
    Nat.sub_le_sub_left hge _
  rcases Nat.lt_or_eq_of_le h2 with hlt | heq
  · exact Prod.Lex.left _ _ hlt
  · rw [heq]
    exact Prod.Lex.right _ (by omega)

end

/-- Bindings of the three standard descriptors of a process; `none` means the
descriptor still refers to whatever it referred to initially (the terminal). -/
structure FdTable where
  fd0 : Option Fd
  fd1 : Option Fd
  fd2 : Option Fd
deriving DecidableEq, Repr

/-- Effect of one action on the standard-descriptor bindings of the process
performing it: `dup2(src, dst)` rebinds descriptor `dst` to what `src` refers
to; no other action of the model changes what descriptors 0, 1, 2 refer to
(`close(file)` closes the extra descriptor returned by `open`, never 0-2, and
a `forkCall` acts in the child, not in this process). -/
def applyAction (t : FdTable) : Action → FdTable
  | Action.dup2Call src dst =>
    if dst = 0 then { t with fd0 := some src }
    else if dst = 1 then { t with fd1 := some src }
    else if dst = 2 then { t with fd2 := some src }
    else t
  | _ => t

/-- Standard-descriptor bindings after a process performs a trace. -/
def runTrace (t : FdTable) (tr : List Action) : FdTable :=
  tr.foldl applyAction t

/-- Events of the parent branch of one `main`-loop iteration that runs an
external command (shell.c lines 108-125), in source order.  The assignment
`childPid = forkWrapper()` is the only write to `childPid` anywhere in
shell.c; the `waitpid` loop and the status report do not write it. -/
inductive SupEvent where
  /-- The assignment `childPid = forkWrapper()` (line 110). -/
  | assignChildPid (p : Int) : SupEvent
  /-- The `do waitpid while` loop collecting the terminal state (117-119). -/
  | waitpidCollect (p : Int) : SupEvent
  /-- The `printf` reporting the status (line 121). -/
  | reportStatus : SupEvent
deriving DecidableEq, Repr

/-- The parent-branch events of one iteration whose fork returned `p`. -/
def mainParentEvents (p : Int) : List SupEvent :=
  [SupEvent.assignChildPid p, SupEvent.waitpidCollect p, SupEvent.reportStatus]

/-- Value of the global `childPid` after a sequence of supervisor events,
starting from `c`: only `assignChildPid` writes it. -/
def childPidAfter (c : Int) (es : List SupEvent) : Int :=
  es.foldl
    (fun c e =>
      match e with
      | SupEvent.assignChildPid p => p
      | _ => c) c

/-- The six operator lexical forms named by the specification (section 6:
recognized operator tokens).  This list follows the words of the spec, for
comparison against the code classifier `isSpecial`. -/
def specOperatorForms : List String := [">", ">>", "<", "2>", "&>", "|"]

/-- The redirection dispatched by `continueProcessingLine` for each of the
five redirection operator tokens (`>`, `>>`, `2>`, `&>`, `<`). -/
def opRedir (op : String) : RedirSpec :=
  if op = ">>" then doAppendRedirection
  else if op = "2>" then doStderrRedirection
  else if op = "&>" then doStdoutStderrRedirection
  else if op = "<" then doStdinRedirection
  else doStdoutRedirection

/-- The binding of standard descriptor number `d` in an `FdTable` (the same
selection `dup2(src, d)` updates in `applyAction`). -/
def fdGet (d : Nat) (t : FdTable) : Option Fd :=
  if d = 0 then t.fd0 else if d = 1 then t.fd1 else t.fd2

/-! Branch equations of `continueProcessingLine`, one per case of the C
if/else chain. -/

theorem cpl_none {line : List String} {idx : Nat} (args : List String) (k : Nat)
    (h : line.get? idx = none) :
    continueProcessingLine line idx args k = ([Action.execCall args], idx) := by
  rw [continueProcessingLine, h]

theorem cpl_append {line : List String} {idx : Nat} (args : List String) (k : Nat)
    (h : line.get? idx = some ">>") :
    continueProcessingLine line idx args k =
      (redirTrace doAppendRedirection (line.get? (idx + 1)) ++
        (continueProcessingLine line (idx + 2) args k).1,
       (continueProcessingLine line (idx + 2) args k).2) := by
  rw [continueProcessingLine, h]
  dsimp only
  rw [if_pos rfl]

theorem cpl_stderr {line : List String} {idx : Nat} (args : List String) (k : Nat)
    (h : line.get? idx = some "2>") :
    continueProcessingLine line idx args k =
      (redirTrace doStderrRedirection (line.get? (idx + 1)) ++
        (continueProcessingLine line (idx + 2) args k).1,
       (continueProcessingLine line (idx + 2) args k).2) := by
  rw [continueProcessingLine, h]
  dsimp only
  rw [if_neg (by decide), if_pos rfl]

theorem cpl_both {line : List String} {idx : Nat} (args : List String) (k : Nat)
    (h : line.get? idx = some "&>") :
    continueProcessingLine line idx args k =
      (redirTrace doStdoutStderrRedirection (line.get? (idx + 1)) ++
        (continueProcessingLine line (idx + 2) args k).1,
       (continueProcessingLine line (idx + 2) args k).2) := by
  rw [continueProcessingLine, h]
  dsimp only
  rw [if_neg (by decide), if_neg (by decide), if_pos rfl]

theorem cpl_stdout {line : List String} {idx : Nat} (args : List String) (k : Nat)
    (h : line.get? idx = some ">") :
    continueProcessingLine line idx args k =
      (redirTrace doStdoutRedirection (line.get? (idx + 1)) ++
        (continueProcessingLine line (idx + 2) args k).1,
       (continueProcessingLine line (idx + 2) args k).2) := by
  rw [continueProcessingLine, h]
  dsimp only
  rw [if_neg (by decide), if_neg (by decide), if_neg (by decide), if_pos rfl]

theorem cpl_stdin {line : List String} {idx : Nat} (args : List String) (k : Nat)
    (h : line.get? idx = some "<") :
    continueProcessingLine line idx args k =
      (redirTrace doStdinRedirection (line.get? (idx + 1)) ++
        (continueProcessingLine line (idx + 2) args k).1,
       (continueProcessingLine line (idx + 2) args k).2) := by
  rw [continueProcessingLine, h]
  dsimp only
  rw [if_neg (by decide), if_neg (by decide), if_neg (by decide),
    if_neg (by decide), if_pos rfl]

theorem cpl_pipe {line : List String} {idx : Nat} (args : List String) (k : Nat)
    (h : line.get? idx = some "|") :
    continueProcessingLine line idx args k = doPipe args line (idx + 1) k := by
  rw [continueProcessingLine, h]
  dsimp only
  rw [if_neg (by decide), if_neg (by decide), if_neg (by decide),
    if_neg (by decide), if_neg (by decide), if_pos rfl]

theorem cpl_other {line : List String} {idx : Nat} {t : String}
    (args : List String) (k : Nat) (h : line.get? idx = some t)
    (h1 : t ≠ ">>") (h2 : t ≠ "2>") (h3 : t ≠ "&>") (h4 : t ≠ ">")
    (h5 : t ≠ "<") (h6 : t ≠ "|") :
    continueProcessingLine line idx args k = ([], idx) := by
  rw [continueProcessingLine, h]
  dsimp only
  rw [if_neg h1, if_neg h2, if_neg h3, if_neg h4, if_neg h5, if_neg h6]

theorem doPipe_eq (p1Args line : List String) (idx k : Nat) :
    doPipe p1Args line idx k =
      (Action.pipeCall k ::
       Action.forkCall [Action.closeCall (Fd.pipeRead k),
         Action.dup2Call (Fd.pipeWrite k) STDOUT_FILENO,
         Action.execCall p1Args] ::
       Action.closeCall (Fd.pipeWrite k) ::
       Action.printCall "right before doing read in parent pipe \n" ::
       Action.dup2Call (Fd.pipeRead k) STDIN_FILENO ::
       Action.printCall "Finish parent pipe " ::
       (continueProcessingLine line (parseArgsIdx line idx)
         (parseArgsList line idx) (k + 1)).1,
       (continueProcessingLine line (parseArgsIdx line idx)
         (parseArgsList line idx) (k + 1)).2) := by
  rw [doPipe]

/-- Fuel-indexed form of cursor monotonicity for the interpreter. -/
theorem cpl_idx_ge_aux :
    ∀ (n : Nat) (line : List String) (idx : Nat) (args : List String) (k : Nat),
      line.length - idx ≤ n →
      idx ≤ (continueProcessingLine line idx args k).2 := by
  intro n
  induction n with
  | zero =>
    intro line idx args k hn
    have h : line.get? idx = none := List.get?_eq_none.mpr (by omega)
    rw [cpl_none args k h]
  | succ n ih =>
    intro line idx args k hn
    cases h : line.get? idx with
    | none => rw [cpl_none args k h]
    | some t =>
      have hlt : idx < line.length := get?_some_lt h
      by_cases h1 : t = ">>"
      · subst h1
        rw [cpl_append args k h]
        have := ih line (idx + 2) args k (by omega)
        dsimp only
        omega
      by_cases h2 : t = "2>"
      · subst h2
        rw [cpl_stderr args k h]
        have := ih line (idx + 2) args k (by omega)
        dsimp only
        omega
      by_cases h3 : t = "&>"
      · subst h3
        rw [cpl_both args k h]
        have := ih line (idx + 2) args k (by omega)
        dsimp only
        omega
      by_cases h4 : t = ">"
      · subst h4
        rw [cpl_stdout args k h]
        have := ih line (idx + 2) args k (by omega)
        dsimp only
        omega
      by_cases h5 : t = "<"
      · subst h5
        rw [cpl_stdin args k h]
        have := ih line (idx + 2) args k (by omega)
        dsimp only
        omega
      by_cases h6 : t = "|"
      · subst h6
        rw [cpl_pipe args k h, doPipe_eq]
        have hge := parseArgsIdx_ge line (idx + 1)
        have := ih line (parseArgsIdx line (idx + 1))
          (parseArgsList line (idx + 1)) (k + 1) (by omega)
        dsimp only
        omega
      rw [cpl_other args k h h1 h2 h3 h4 h5 h6]

/-- Cursor monotonicity: interpretation never rewinds `*lineIndex`. -/
theorem cpl_idx_ge (line : List String) (idx : Nat) (args : List String)
    (k : Nat) : idx ≤ (continueProcessingLine line idx args k).2 :=
  cpl_idx_ge_aux line.length line idx args k (Nat.sub_le _ _)

/-- Fuel-indexed form: the trace of an interpreter run whose pipe counter
starts at `k` never closes an end of a pipe numbered below `k` (all its own
pipes are numbered from `k` up). -/
theorem cpl_closes_ge_aux :
    ∀ (n : Nat) (line : List String) (idx : Nat) (args : List String) (k j : Nat),
      line.length - idx ≤ n → j < k →
      Action.closeCall (Fd.pipeRead j) ∉
        (continueProcessingLine line idx args k).1 ∧
      Action.closeCall (Fd.pipeWrite j) ∉
        (continueProcessingLine line idx args k).1 := by
  intro n
  induction n with
  | zero =>
    intro line idx args k j hn hj
    have h : line.get? idx = none := List.get?_eq_none.mpr (by omega)
    rw [cpl_none args k h]
    simp
  | succ n ih =>
    intro line idx args k j hn hj
    cases h : line.get? idx with
    | none =>
      rw [cpl_none args k h]
      simp
    | some t =>
      have hlt : idx < line.length := get?_some_lt h
      by_cases h1 : t = ">>"
      · subst h1
        rw [cpl_append args k h]
        have hr := ih line (idx + 2) args k j (by omega) hj
        dsimp only
        constructor
        · intro hmem
          rcases List.mem_append.mp hmem with hm | hm
          · simp [redirTrace] at hm
          · exact hr.1 hm
        · intro hmem
          rcases List.mem_append.mp hmem with hm | hm
          · simp [redirTrace] at hm
          · exact hr.2 hm
      by_cases h2 : t = "2>"
      · subst h2
        rw [cpl_stderr args k h]
        have hr := ih line (idx + 2) args k j (by omega) hj
        dsimp only
        constructor
        · intro hmem
          rcases List.mem_append.mp hmem with hm | hm
          · simp [redirTrace] at hm
          · exact hr.1 hm
        · intro hmem
          rcases List.mem_append.mp hmem with hm | hm
          · simp [redirTrace] at hm
          · exact hr.2 hm
      by_cases h3 : t = "&>"
      · subst h3
        rw [cpl_both args k h]
        have hr := ih line (idx + 2) args k j (by omega) hj
        dsimp only
        constructor
        · intro hmem
          rcases List.mem_append.mp hmem with hm | hm
          · simp [redirTrace] at hm
          · exact hr.1 hm
        · intro hmem
          rcases List.mem_append.mp hmem with hm | hm
          · simp [redirTrace] at hm
          · exact hr.2 hm
      by_cases h4 : t = ">"
      · subst h4
        rw [cpl_stdout args k h]
        have hr := ih line (idx + 2) args k j (by omega) hj
        dsimp only
        constructor
        · intro hmem
          rcases List.mem_append.mp hmem with hm | hm
          · simp [redirTrace] at hm
          · exact hr.1 hm
        · intro hmem
          rcases List.mem_append.mp hmem with hm | hm
          · simp [redirTrace] at hm
          · exact hr.2 hm
      by_cases h5 : t = "<"
      · subst h5
        rw [cpl_stdin args k h]
        have hr := ih line (idx + 2) args k j (by omega) hj
        dsimp only
        constructor
        · intro hmem
          rcases List.mem_append.mp hmem with hm | hm
          · simp [redirTrace] at hm
          · exact hr.1 hm
        · intro hmem
          rcases List.mem_append.mp hmem with hm | hm
          · simp [redirTrace] at hm
          · exact hr.2 hm
      by_cases h6 : t = "|"
      · subst h6
        rw [cpl_pipe args k h, doPipe_eq]
        have hge := parseArgsIdx_ge line (idx + 1)
        have hr := ih line (parseArgsIdx line (idx + 1))
          (parseArgsList line (idx + 1)) (k + 1) j (by omega) (by omega)
        dsimp only
        have hjk : j ≠ k := Nat.ne_of_lt hj
        constructor
        · intro hmem
          simp only [List.mem_cons] at hmem
          rcases hmem with h0 | h0 | h0 | h0 | h0 | h0 | h0
          iterate 6 simp_all
          exact hr.1 h0
        · intro hmem
          simp only [List.mem_cons] at hmem
          rcases hmem with h0 | h0 | h0 | h0 | h0 | h0 | h0
          iterate 6 simp_all
          exact hr.2 h0
      rw [cpl_other args k h h1 h2 h3 h4 h5 h6]
      simp

/-- Helper: a successful lookup splits `drop` as a cons. -/
theorem drop_cons_of_get? {α : Type} {l : List α} {i : Nat} {a : α}
    (h : l.get? i = some a) : l.drop i = a :: l.drop (i + 1) := by
  have hlt := get?_some_lt h
  rw [List.drop_eq_getElem_cons hlt]
  have hg : l.get? i = some l[i] := by
    simp [List.get?_eq_getElem?, List.getElem?_eq_getElem hlt]
  rw [hg] at h
  rw [Option.some.inj h]

/-- Helper: `drop` past the end is empty. -/
theorem drop_nil_of_get?_none {α : Type} {l : List α} {i : Nat}
    (h : l.get? i = none) : l.drop i = [] :=
  List.drop_eq_nil_of_le (List.get?_eq_none.mp h)

/-- The values written by the `parseArgs` loop are the maximal run of
non-special tokens from the cursor, followed by the NULL sentinel. -/
theorem parseArgsRec_snd_values (line : List String) : ∀ (i j : Nat),
    ((parseArgsRec line i j).1).map Prod.snd =
      ((line.drop i).takeWhile (fun t => !isSpecial t)).map Option.some ++
        [Option.none] := by
  intro i j
  induction i, j using parseArgsRec.induct line with
  | case1 i j h =>
    rw [parseArgsRec, h, drop_nil_of_get?_none h]
    simp
  | case2 i j t h hs =>
    rw [parseArgsRec, h]
    dsimp only
    rw [if_pos hs, drop_cons_of_get? h]
    simp [List.takeWhile_cons, hs]
  | case3 i j t h hs ih =>
    rw [parseArgsRec, h]
    dsimp only
    rw [if_neg hs, drop_cons_of_get? h]
    have hb : (!isSpecial t) = true := by simp [hs]
    simp [List.takeWhile_cons, hb, ih]

/-- The indices written by the `parseArgs` loop are consecutive from `j`:
one per copied token plus one for the NULL sentinel. -/
theorem parseArgsRec_fst_indices (line : List String) : ∀ (i j : Nat),
    ((parseArgsRec line i j).1).map Prod.fst =
      List.range' j (((line.drop i).takeWhile (fun t => !isSpecial t)).length + 1) := by
  intro i j
  induction i, j using parseArgsRec.induct line with
  | case1 i j h =>
    rw [parseArgsRec, h, drop_nil_of_get?_none h]
    simp
  | case2 i j t h hs =>
    rw [parseArgsRec, h]
    dsimp only
    rw [if_pos hs, drop_cons_of_get? h]
    simp [List.takeWhile_cons, hs]
  | case3 i j t h hs ih =>
    rw [parseArgsRec, h]
    dsimp only
    rw [if_neg hs, drop_cons_of_get? h]
    have hb : (!isSpecial t) = true := by simp [hs]
    simp [List.takeWhile_cons, hb, ih, List.range'_succ]

/-- The final cursor of the `parseArgs` loop is the starting cursor plus the
length of the copied run. -/
theorem parseArgsRec_snd_eq (line : List String) : ∀ (i j : Nat),
    (parseArgsRec line i j).2 =
      i + ((line.drop i).takeWhile (fun t => !isSpecial t)).length := by
  intro i j
  induction i, j using parseArgsRec.induct line with
  | case1 i j h =>
    rw [parseArgsRec, h, drop_nil_of_get?_none h]
    simp
  | case2 i j t h hs =>
    rw [parseArgsRec, h]
    dsimp only
    rw [if_pos hs, drop_cons_of_get? h]
    simp [List.takeWhile_cons, hs]
  | case3 i j t h hs ih =>
    rw [parseArgsRec, h]
    dsimp only
    rw [if_neg hs, drop_cons_of_get? h]
    have hb : (!isSpecial t) = true := by simp [hs]
    rw [List.takeWhile_cons, if_pos hb]
    dsimp only
    rw [ih]
    simp only [List.length_cons]
    omega

/-- The token at the final cursor of the `parseArgs` loop, when present, is
special. -/
theorem parseArgsRec_stops_special (line : List String) : ∀ (i j : Nat)
    (t : String), line.get? ((parseArgsRec line i j).2) = some t →
    isSpecial t = true := by
  intro i j
  induction i, j using parseArgsRec.induct line with
  | case1 i j h =>
    rw [parseArgsRec, h]
    intro t ht
    rw [h] at ht
    exact Option.noConfusion ht
  | case2 i j t h hs =>
    rw [parseArgsRec, h]
    dsimp only
    rw [if_pos hs]
    intro u hu
    rw [h] at hu
    rw [← Option.some.inj hu]
    exact hs
  | case3 i j t h hs ih =>
    rw [parseArgsRec, h]
    dsimp only
    rw [if_neg hs]
    exact ih

/-- `parseArgs` copies exactly the maximal run of consecutive non-special
tokens starting at the cursor. -/
theorem parseArgsList_eq_takeWhile (line : List String) (i : Nat) :
    parseArgsList line i = (line.drop i).takeWhile (fun t => !isSpecial t) := by
  have hfm : parseArgsList line i =
      List.filterMap id ((parseArgsWrites line i).map Prod.snd) := by
    rw [List.filterMap_map]
    rfl
  rw [hfm]
  unfold parseArgsWrites
  rw [parseArgsRec_snd_values line i 0]
  simp [Function.comp]

/-- `parseArgs` leaves the cursor exactly past the copied run. -/
theorem parseArgsIdx_eq (line : List String) (i : Nat) :
    parseArgsIdx line i = i + (parseArgsList line i).length := by
  rw [parseArgsList_eq_takeWhile]
  exact parseArgsRec_snd_eq line i 0

/-- The values `parseArgs` writes: the copied run, then the NULL sentinel. -/
theorem parseArgsWrites_snd_eq (line : List String) (i : Nat) :
    (parseArgsWrites line i).map Prod.snd =
      (parseArgsList line i).map Option.some ++ [Option.none] := by
  rw [parseArgsList_eq_takeWhile]
  exact parseArgsRec_snd_values line i 0

/-- The indices `parseArgs` writes: 0, 1, ..., run length (the last one
receives the NULL sentinel). -/
theorem parseArgsWrites_fst_eq (line : List String) (i : Nat) :
    (parseArgsWrites line i).map Prod.fst =
      List.range ((parseArgsList line i).length + 1) := by
  rw [parseArgsList_eq_takeWhile, List.range_eq_range']
  exact parseArgsRec_fst_indices line i 0

/-- The token at the cursor position where `parseArgs` stopped, when present,
is special. -/
theorem parseArgsIdx_stops_special (line : List String) (i : Nat) (t : String)
    (h : line.get? (parseArgsIdx line i) = some t) : isSpecial t = true :=
  parseArgsRec_stops_special line i 0 t h

/-- Dispatch of the five redirection operators in `continueProcessingLine`,
expressed through `opRedir`. -/
theorem cpl_redir_op {line : List String} {idx : Nat} (args : List String)
    (k : Nat) {op : String} (h : line.get? idx = some op)
    (hop : op ∈ ([">", ">>", "2>", "&>", "<"] : List String)) :
    continueProcessingLine line idx args k =
      (redirTrace (opRedir op) (line.get? (idx + 1)) ++
        (continueProcessingLine line (idx + 2) args k).1,
       (continueProcessingLine line (idx + 2) args k).2) := by
  simp only [List.mem_cons, List.not_mem_nil, or_false] at hop
  rcases hop with rfl | rfl | rfl | rfl | rfl
  · rw [cpl_stdout args k h]
    rfl
  · rw [cpl_append args k h]
    rfl
  · rw [cpl_stderr args k h]
    rfl
  · rw [cpl_both args k h]
    rfl
  · rw [cpl_stdin args k h]
    rfl

/-- `runTrace` distributes over trace concatenation. -/
theorem runTrace_append (t : FdTable) (tr1 tr2 : List Action) :
    runTrace t (tr1 ++ tr2) = runTrace (runTrace t tr1) tr2 :=
  List.foldl_append applyAction t tr1 tr2

/-- After any of the five redirections, every standard descriptor the
redirection rebinds refers to the freshly opened file. -/
theorem fd_after_redirOp (op : String)
    (hop : op ∈ ([">", ">>", "2>", "&>", "<"] : List String)) (d : Nat)
    (hd : d ∈ (opRedir op).rebinds) (f : Option String) (t : FdTable) :
    fdGet d (runTrace t (redirTrace (opRedir op) f)) =
      some (Fd.opened f (opRedir op).flags (opRedir op).mode) := by
  simp only [List.mem_cons, List.not_mem_nil, or_false] at hop
  rcases hop with rfl | rfl | rfl | rfl | rfl
  · have hd1 : d = 1 := by
      simpa [opRedir, doStdoutRedirection, STDOUT_FILENO] using hd
    subst hd1
    rfl
  · have hd1 : d = 1 := by
      simpa [opRedir, doAppendRedirection, STDOUT_FILENO] using hd
    subst hd1
    rfl
  · have hd2 : d = 2 := by
      simpa [opRedir, doStderrRedirection, STDERR_FILENO] using hd
    subst hd2
    rfl
  · have hd12 : d = 1 ∨ d = 2 := by
      simpa [opRedir, doStdoutStderrRedirection, STDOUT_FILENO, STDERR_FILENO]
        using hd
    rcases hd12 with rfl | rfl <;> rfl
  · have hd0 : d = 0 := by
      simpa [opRedir, doStdinRedirection, STDIN_FILENO] using hd
    subst hd0
    rfl

/-! Claim theorems. -/

/-- C1 (code evaluated at the failing input): when `childPid = 1234` is a real
process and SIGINT is delivered, the handler issues `kill` with the SIGINT
constant in the target-pid argument position and `1234` in the signal-number
position — it does NOT deliver SIGINT to process 1234 — while `childPid = 0`
correctly results in no action. -/
theorem signalHandler_swapped_args :
    signalHandler 1234 = some { pid := SIGINT, sig := 1234 } ∧
    signalHandler 1234 ≠ some { pid := 1234, sig := SIGINT } ∧
    signalHandler 0 = none := by
  decide

/-- C2 (counterexample): the four failure exit statuses — exec failure, fork
failure, pipe-creation failure, file-open failure during redirection — are not
pairwise distinct: exec failure and file-open failure both use status 1. -/
theorem exit_codes_not_distinct :
    ¬ List.Pairwise Ne
        [runExecFailStatus, forkWrapperFailStatus, pipeWrapperFailStatus,
          doStdoutRedirection.failStatus] := by
  decide

/-- C2 (amended): all four failure exits use non-zero statuses, and fork (2)
and pipe (4) failure statuses are distinct from each other and from the rest,
but exec failure and file-open failure in every redirection mode share
status 1, so only three distinct values occur among the four exits. -/
theorem exit_codes_amended :
    runExecFailStatus ≠ 0 ∧ forkWrapperFailStatus ≠ 0 ∧
    pipeWrapperFailStatus ≠ 0 ∧
    doAppendRedirection.failStatus = runExecFailStatus ∧
    doStdoutRedirection.failStatus = runExecFailStatus ∧
    doStderrRedirection.failStatus = runExecFailStatus ∧
    doStdoutStderrRedirection.failStatus = runExecFailStatus ∧
    doStdinRedirection.failStatus = runExecFailStatus ∧
    List.Pairwise Ne
      [forkWrapperFailStatus, pipeWrapperFailStatus, runExecFailStatus] := by
  decide

/-- C3 (counterexample): the token `a>` is classified special by `isSpecial`
although it is none of the six operator forms the spec names, so "every other
token is a plain argument" fails. -/
theorem operator_forms_cex :
    isSpecial "a>" = true ∧ "a>" ∉ specOperatorForms := by
  decide

/-- C3 (amended): a token is classified special iff it is a one-character
token `<`, `>` or `|`, or any two-character token whose second character is
`>` — a strict superset of the six spec forms that also admits tokens such as
`a>`. -/
theorem operator_forms_amended : ∀ t : String,
    isSpecial t = true ↔
      ((∃ c, t.data = [c] ∧ (c = '<' ∨ c = '>' ∨ c = '|')) ∨
        ∃ c, t.data = [c, '>']) := by
  intro t
  cases hd : t.data with
  | nil => simp [isSpecial, hd]
  | cons c cs =>
    cases cs with
    | nil => simp [isSpecial, hd, or_assoc]
    | cons c2 cs2 =>
      cases cs2 with
      | nil => simp [isSpecial, hd]
      | cons c3 cs3 => simp [isSpecial, hd]

/-- C4 (code evaluated at the failing input): after the parent branch of a
`main` iteration whose fork returned 1234 — assignment to `childPid`, the
`waitpid` loop collecting the terminal state, and the status report —
`childPid` still holds 1234, not the sentinel 0: no event of the iteration
ever writes the sentinel back. -/
theorem childPid_not_cleared_after_wait :
    childPidAfter 0 (mainParentEvents 1234) = 1234 ∧
    childPidAfter 0 (mainParentEvents 1234) ≠ 0 := by
  decide

/-- C5: on a PIPE operator the interpreter defers to `doPipe`; the forked
child closes the pipe read end, rebinds stdout to the write end, and only then
execs the already-parsed left command; the parent closes the write end, then
rebinds stdin to the read end, and only then the continuation (which parses
the next command and resumes interpretation) runs; and that continuation never
closes either end of this pipe again, so each process closes exactly the one
end it does not own before any further I/O. -/
theorem pipe_wiring : ∀ (p1Args line : List String) (idx k : Nat)
    (args : List String),
    (line.get? idx = some "|" →
      continueProcessingLine line idx args k = doPipe args line (idx + 1) k) ∧
    (doPipe p1Args line idx k).1 =
      Action.pipeCall k ::
      Action.forkCall [Action.closeCall (Fd.pipeRead k),
        Action.dup2Call (Fd.pipeWrite k) STDOUT_FILENO,
        Action.execCall p1Args] ::
      Action.closeCall (Fd.pipeWrite k) ::
      Action.printCall "right before doing read in parent pipe \n" ::
      Action.dup2Call (Fd.pipeRead k) STDIN_FILENO ::
      Action.printCall "Finish parent pipe " ::
      (continueProcessingLine line (parseArgsIdx line idx)
        (parseArgsList line idx) (k + 1)).1 ∧
    Action.closeCall (Fd.pipeRead k) ∉
      (continueProcessingLine line (parseArgsIdx line idx)
        (parseArgsList line idx) (k + 1)).1 ∧
    Action.closeCall (Fd.pipeWrite k) ∉
      (continueProcessingLine line (parseArgsIdx line idx)
        (parseArgsList line idx) (k + 1)).1 := by
  intro p1Args line idx k args
  refine ⟨fun h => cpl_pipe args k h, ?_, ?_, ?_⟩
  · rw [doPipe_eq]
  · exact (cpl_closes_ge_aux line.length line (parseArgsIdx line idx)
      (parseArgsList line idx) (k + 1) k (Nat.sub_le _ _)
      (Nat.lt_succ_self k)).1
  · exact (cpl_closes_ge_aux line.length line (parseArgsIdx line idx)
      (parseArgsList line idx) (k + 1) k (Nat.sub_le _ _)
      (Nat.lt_succ_self k)).2

/-- C5 witness at a concrete input. -/
theorem pipe_wiring_w :
    continueProcessingLine ["|"] 0 ["/bin/ls"] 0 = doPipe ["/bin/ls"] ["|"] 1 0 :=
  (pipe_wiring ["/bin/ls"] ["|"] 0 0 ["/bin/ls"]).1 rfl

/-- C6: the five redirection modes open their target with exactly the flag
combinations of the spec table (create+truncate+write-only for stdout, stderr
and both-overwrite; create+append+write-only for append; read-only without
create, so the file must exist, for stdin), rebind exactly the claimed
standard descriptors (both stdout and stderr to the same opened descriptor for
`&>`), give created files the owner read/write/execute mode bits, and close
the now-redundant descriptor returned by `open` after the rebinding. -/
theorem redirection_modes : ∀ f : Option String,
    (doStdoutRedirection.flags.land O_CREAT ≠ 0 ∧
     doStdoutRedirection.flags.land O_TRUNC ≠ 0 ∧
     doStdoutRedirection.flags.land O_APPEND = 0 ∧
     doStdoutRedirection.flags.land O_ACCMODE = O_WRONLY) ∧
    doStderrRedirection.flags = doStdoutRedirection.flags ∧
    doStdoutStderrRedirection.flags = doStdoutRedirection.flags ∧
    (doAppendRedirection.flags.land O_CREAT ≠ 0 ∧
     doAppendRedirection.flags.land O_APPEND ≠ 0 ∧
     doAppendRedirection.flags.land O_TRUNC = 0 ∧
     doAppendRedirection.flags.land O_ACCMODE = O_WRONLY) ∧
    (doStdinRedirection.flags.land O_CREAT = 0 ∧
     doStdinRedirection.flags = O_RDONLY) ∧
    doStdoutRedirection.rebinds = [STDOUT_FILENO] ∧
    doAppendRedirection.rebinds = [STDOUT_FILENO] ∧
    doStderrRedirection.rebinds = [STDERR_FILENO] ∧
    doStdoutStderrRedirection.rebinds = [STDOUT_FILENO, STDERR_FILENO] ∧
    doStdinRedirection.rebinds = [STDIN_FILENO] ∧
    doStdoutRedirection.mode = S_IRUSR.lor (S_IWUSR.lor S_IXUSR) ∧
    doAppendRedirection.mode = S_IRUSR.lor (S_IWUSR.lor S_IXUSR) ∧
    doStderrRedirection.mode = S_IRUSR.lor (S_IWUSR.lor S_IXUSR) ∧
    doStdoutStderrRedirection.mode = S_IRUSR.lor (S_IWUSR.lor S_IXUSR) ∧
    redirTrace doStdoutRedirection f =
      [Action.openCall f doStdoutRedirection.flags doStdoutRedirection.mode,
       Action.dup2Call (Fd.opened f doStdoutRedirection.flags
         doStdoutRedirection.mode) STDOUT_FILENO,
       Action.closeCall (Fd.opened f doStdoutRedirection.flags
         doStdoutRedirection.mode)] ∧
    redirTrace doStdoutStderrRedirection f =
      [Action.openCall f doStdoutStderrRedirection.flags
         doStdoutStderrRedirection.mode,
       Action.dup2Call (Fd.opened f doStdoutStderrRedirection.flags
         doStdoutStderrRedirection.mode) STDOUT_FILENO,
       Action.dup2Call (Fd.opened f doStdoutStderrRedirection.flags
         doStdoutStderrRedirection.mode) STDERR_FILENO,
       Action.closeCall (Fd.opened f doStdoutStderrRedirection.flags
         doStdoutStderrRedirection.mode)] ∧
    ∀ t : FdTable,
      (runTrace t (redirTrace doStdoutRedirection f)).fd1 =
        some (Fd.opened f doStdoutRedirection.flags doStdoutRedirection.mode) ∧
      (runTrace t (redirTrace doStdoutRedirection f)).fd0 = t.fd0 ∧
      (runTrace t (redirTrace doStdoutRedirection f)).fd2 = t.fd2 ∧
      (runTrace t (redirTrace doAppendRedirection f)).fd1 =
        some (Fd.opened f doAppendRedirection.flags doAppendRedirection.mode) ∧
      (runTrace t (redirTrace doStderrRedirection f)).fd2 =
        some (Fd.opened f doStderrRedirection.flags doStderrRedirection.mode) ∧
      (runTrace t (redirTrace doStderrRedirection f)).fd1 = t.fd1 ∧
      (runTrace t (redirTrace doStdoutStderrRedirection f)).fd1 =
        some (Fd.opened f doStdoutStderrRedirection.flags
          doStdoutStderrRedirection.mode) ∧
      (runTrace t (redirTrace doStdoutStderrRedirection f)).fd2 =
        (runTrace t (redirTrace doStdoutStderrRedirection f)).fd1 ∧
      (runTrace t (redirTrace doStdinRedirection f)).fd0 =
        some (Fd.opened f doStdinRedirection.flags doStdinRedirection.mode) ∧
      (runTrace t (redirTrace doStdinRedirection f)).fd1 = t.fd1 := by
  intro f
  refine ⟨by decide, rfl, rfl, by decide, by decide, rfl, rfl, rfl, rfl, rfl,
    by decide, by decide, by decide, by decide, rfl, rfl, ?_⟩
  intro t
  exact ⟨rfl, rfl, rfl, rfl, rfl, rfl, rfl, rfl, rfl, rfl⟩

/-- C7: interpretation never rewinds the cursor: `continueProcessingLine`
and `parseArgs` both end with a cursor at least as large as they started
with, and both strictly advance it whenever they consume a token (a
non-special token for `parseArgs`, one of the six operator tokens for the
interpreter) — the bound that makes interpretation of a finite token
sequence terminate (all interpreter functions here are total). -/
theorem cursor_never_rewinds : ∀ (line : List String) (idx : Nat)
    (args : List String) (k : Nat),
    idx ≤ (continueProcessingLine line idx args k).2 ∧
    idx ≤ parseArgsIdx line idx ∧
    (∀ t, line.get? idx = some t → isSpecial t = false →
      idx + 1 ≤ parseArgsIdx line idx) ∧
    (∀ t, line.get? idx = some t →
      (t = ">>" ∨ t = "2>" ∨ t = "&>" ∨ t = ">" ∨ t = "<" ∨ t = "|") →
      idx + 1 ≤ (continueProcessingLine line idx args k).2) := by
  intro line idx args k
  refine ⟨cpl_idx_ge line idx args k, parseArgsIdx_ge line idx, ?_, ?_⟩
  · intro t ht hns
    unfold parseArgsIdx
    rw [parseArgsRec, ht]
    dsimp only
    rw [if_neg (by simp [hns])]
    dsimp only
    have := parseArgsRec_idx_ge line (idx + 1) (0 + 1)
    omega
  · intro t ht hop
    rcases hop with rfl | rfl | rfl | rfl | rfl | rfl
    · rw [cpl_append args k ht]
      have := cpl_idx_ge line (idx + 2) args k
      dsimp only
      omega
    · rw [cpl_stderr args k ht]
      have := cpl_idx_ge line (idx + 2) args k
      dsimp only
      omega
    · rw [cpl_both args k ht]
      have := cpl_idx_ge line (idx + 2) args k
      dsimp only
      omega
    · rw [cpl_stdout args k ht]
      have := cpl_idx_ge line (idx + 2) args k
      dsimp only
      omega
    · rw [cpl_stdin args k ht]
      have := cpl_idx_ge line (idx + 2) args k
      dsimp only
      omega
    · rw [cpl_pipe args k ht, doPipe_eq]
      have hge := parseArgsIdx_ge line (idx + 1)
      have := cpl_idx_ge line (parseArgsIdx line (idx + 1))
        (parseArgsList line (idx + 1)) (k + 1)
      dsimp only
      omega

/-- C7 witness at concrete inputs. -/
theorem cursor_never_rewinds_w :
    0 + 1 ≤ parseArgsIdx ["a"] 0 ∧
    0 + 1 ≤ (continueProcessingLine [">", "f"] 0 ["a"] 0).2 :=
  ⟨(cursor_never_rewinds ["a"] 0 ["a"] 0).2.2.1 "a" rfl (by decide),
   (cursor_never_rewinds [">", "f"] 0 ["a"] 0).2.2.2 ">" rfl
     (Or.inr (Or.inr (Or.inr (Or.inl rfl))))⟩

/-- C8: `parseArgs` copies exactly the maximal run of consecutive non-special
tokens starting at the cursor, writes the NULL sentinel right after them, and
leaves the cursor at the position past the run — a position holding a special
token or no token at all. -/
theorem parseArgs_extracts_run : ∀ (line : List String) (i : Nat),
    parseArgsList line i = (line.drop i).takeWhile (fun t => !isSpecial t) ∧
    (parseArgsWrites line i).map Prod.snd =
      (parseArgsList line i).map Option.some ++ [Option.none] ∧
    parseArgsIdx line i = i + (parseArgsList line i).length ∧
    (∀ t, line.get? (parseArgsIdx line i) = some t → isSpecial t = true) :=
  fun line i =>
    ⟨parseArgsList_eq_takeWhile line i, parseArgsWrites_snd_eq line i,
     parseArgsIdx_eq line i, parseArgsIdx_stops_special line i⟩

/-- C8 witness at a concrete input. -/
theorem parseArgs_extracts_run_w :
    parseArgsList ["a", "b", ">", "c"] 0 = ["a", "b"] ∧
    isSpecial ">" = true := by
  have h := parseArgs_extracts_run ["a", "b", ">", "c"] 0
  have hl : parseArgsList ["a", "b", ">", "c"] 0 = ["a", "b"] := by
    rw [h.1]
    decide
  have hi : parseArgsIdx ["a", "b", ">", "c"] 0 = 2 := by
    rw [h.2.2.1, hl]
    rfl
  exact ⟨hl, h.2.2.2 ">" (by rw [hi]; decide)⟩

/-- C9: for any two redirection operators in one command line that target the
same standard stream — stdout pairs among `>`, `>>`, `&>`, stderr pairs among
`2>`, `&>`, stdin pairs with `<` — interpreting both leaves that stream's
descriptor bound to the file of the later redirection, with the later
redirection's open flags and mode, and never to the earlier file: each
redirection call unconditionally rebinds the descriptor, so the last write
wins. -/
theorem redirect_last_wins : ∀ (d : Nat) (op1 op2 f1 f2 : String)
    (args : List String) (k : Nat) (t : FdTable),
    op1 ∈ ([">", ">>", "2>", "&>", "<"] : List String) →
    op2 ∈ ([">", ">>", "2>", "&>", "<"] : List String) →
    d ∈ (opRedir op1).rebinds →
    d ∈ (opRedir op2).rebinds →
    fdGet d (runTrace t
        (continueProcessingLine [op1, f1, op2, f2] 0 args k).1) =
      some (Fd.opened (some f2) (opRedir op2).flags (opRedir op2).mode) ∧
    (f1 ≠ f2 → ∀ fl md,
      fdGet d (runTrace t
          (continueProcessingLine [op1, f1, op2, f2] 0 args k).1) ≠
        some (Fd.opened (some f1) fl md)) := by
  intro d op1 op2 f1 f2 args k t hop1 hop2 hd1 hd2
  have h1 : fdGet d (runTrace t
      (continueProcessingLine [op1, f1, op2, f2] 0 args k).1) =
      some (Fd.opened (some f2) (opRedir op2).flags (opRedir op2).mode) := by
    rw [@cpl_redir_op ([op1, f1, op2, f2]) 0 args k op1 rfl hop1,
        @cpl_redir_op ([op1, f1, op2, f2]) 2 args k op2 rfl hop2,
        @cpl_none ([op1, f1, op2, f2]) 4 args k rfl]
    dsimp only
    rw [runTrace_append, runTrace_append]
    exact fd_after_redirOp op2 hop2 d hd2 (some f2)
      (runTrace t (redirTrace (opRedir op1) (some f1)))
  refine ⟨h1, fun hne fl md hcontr => ?_⟩
  rw [h1] at hcontr
  simp only [Option.some.injEq, Fd.opened.injEq] at hcontr
  exact hne hcontr.1.symm

/-- C9 witness at concrete inputs: a stdout pair and a mixed stderr pair. -/
theorem redirect_last_wins_w :
    fdGet 1 (runTrace ⟨none, none, none⟩
      (continueProcessingLine [">", "a.txt", ">", "b.txt"] 0 ["/bin/echo"] 0).1) =
      some (Fd.opened (some "b.txt") (opRedir ">").flags (opRedir ">").mode) ∧
    fdGet 2 (runTrace ⟨none, none, none⟩
      (continueProcessingLine ["2>", "a.txt", "&>", "b.txt"] 0 ["/bin/echo"] 0).1) =
      some (Fd.opened (some "b.txt") (opRedir "&>").flags (opRedir "&>").mode) ∧
    fdGet 2 (runTrace ⟨none, none, none⟩
      (continueProcessingLine ["2>", "a.txt", "&>", "b.txt"] 0 ["/bin/echo"] 0).1) ≠
      some (Fd.opened (some "a.txt") (opRedir "2>").flags (opRedir "2>").mode) :=
  ⟨(redirect_last_wins 1 ">" ">" "a.txt" "b.txt" ["/bin/echo"] 0
      ⟨none, none, none⟩ (by decide) (by decide) (by decide) (by decide)).1,
   (redirect_last_wins 2 "2>" "&>" "a.txt" "b.txt" ["/bin/echo"] 0
      ⟨none, none, none⟩ (by decide) (by decide) (by decide) (by decide)).1,
   (redirect_last_wins 2 "2>" "&>" "a.txt" "b.txt" ["/bin/echo"] 0
      ⟨none, none, none⟩ (by decide) (by decide) (by decide) (by decide)).2
      (by decide) (opRedir "2>").flags (opRedir "2>").mode⟩

/-- C10: for every line and cursor, `parseArgs` writes exactly at the indices
0, 1, ..., run length (the last write being the NULL sentinel) of the caller's
array — no bound is checked — so every write lands below an array bound `M`
exactly when the run of consecutive non-special tokens is shorter than `M`. -/
theorem parseArgs_write_bounds : ∀ (line : List String) (i M : Nat),
    (parseArgsWrites line i).map Prod.fst =
      List.range ((parseArgsList line i).length + 1) ∧
    ((∀ p ∈ parseArgsWrites line i, p.1 < M) ↔
      (parseArgsList line i).length < M) := by
  intro line i M
  refine ⟨parseArgsWrites_fst_eq line i, ?_, ?_⟩
  · intro hall
    have hmem : (parseArgsList line i).length ∈
        (parseArgsWrites line i).map Prod.fst := by
      rw [parseArgsWrites_fst_eq]
      simp
    rcases List.mem_map.mp hmem with ⟨p, hp, hfst⟩
    have := hall p hp
    omega
  · intro hlt p hp
    have hmem : p.1 ∈ (parseArgsWrites line i).map Prod.fst :=
      List.mem_map_of_mem Prod.fst hp
    rw [parseArgsWrites_fst_eq] at hmem
    have := List.mem_range.mp hmem
    omega

/-- C10 witness at a concrete input. -/
theorem parseArgs_write_bounds_w :
    (parseArgsWrites ["a"] 0).map Prod.fst = List.range 2 := by
  rw [(parseArgs_write_bounds ["a"] 0 5).1, parseArgsList_eq_takeWhile]
  decide

end Shell
